import Mathlib

/-!
Verification of the D3 scatterplot tutorial repository.

The repository's scripts (`drawScatter` in the unnamed parts, `drawLineChart`
in the samples) follow one pipeline: load a JSON dataset, compute chart
dimensions, build linear scales from data extents, join the dataset to SVG
circle marks, and wire hover handlers.  We shallowly embed that pipeline:
numbers are exact rationals (ℚ), JavaScript `undefined`/`NaN` values are
`Option` `none`, DOM element lists are Lean lists, and event handlers are
state-transition functions.
-/

namespace Scatter

/-- One weather observation as parsed from `my_weather_data.json`; the
fields the scatterplot scripts access. -/
structure Record where
  dewPoint : ℚ
  humidity : ℚ
  cloudCover : ℚ
  date : String
deriving DecidableEq, Repr

/-- Source: `const xAccessor = (d) => d.dewPoint`. -/
def xAccessor (d : Record) : ℚ := d.dewPoint

/-- Source: `const yAccessor = (d) => d.humidity`. -/
def yAccessor (d : Record) : ℚ := d.humidity

/-- Source: `const colorAccessor = (d) => d.cloudCover` (named `coverAccessor` in
part_001). -/
def colorAccessor (d : Record) : ℚ := d.cloudCover

/-- The four margin insets of the `dimensions` object. -/
structure Margin where
  top : ℚ
  right : ℚ
  bottom : ℚ
  left : ℚ
deriving DecidableEq, Repr

/-- The `dimensions` value object: outer width/height, margins, and the
derived bounded width/height. -/
structure Dimensions where
  width : ℚ
  height : ℚ
  margin : Margin
  boundedWidth : ℚ
  boundedHeight : ℚ
deriving DecidableEq, Repr

/-- The dimension calculator:
`const width = d3.min([window.innerWidth * 0.9, window.innerHeight * 0.9])`,
`height: width`, and
`boundedWidth = width - margin.left - margin.right`,
`boundedHeight = height - margin.top - margin.bottom`. -/
def makeDimensions (innerWidth innerHeight : ℚ) (m : Margin) : Dimensions :=
  let width := min (innerWidth * (9/10)) (innerHeight * (9/10))
  { width := width
    height := width
    margin := m
    boundedWidth := width - m.left - m.right
    boundedHeight := width - m.top - m.bottom }

/-- The margins used by part_000, part_001, part_005:
`{ top: 10, right: 10, bottom: 50, left: 50 }`. -/
def marginP1 : Margin := ⟨10, 10, 50, 50⟩

/-- The margins used by part_004: `{ top: 20, right: 20, bottom: 50, left: 70 }`. -/
def marginP4 : Margin := ⟨20, 20, 50, 70⟩

/-- A constructed `d3.scaleLinear()` after `.domain([d0, d1]).range([r0, r1])`:
just its configuration. -/
structure LinearScale where
  d0 : ℚ
  d1 : ℚ
  r0 : ℚ
  r1 : ℚ
deriving DecidableEq, Repr

/-- Applying a linear scale: interpolate the range at the normalized position
of `x` in the domain (d3's `normalize` then `interpolateNumber`).  For a
degenerate domain d3's `normalize` is the constant `0.5`. -/
def LinearScale.apply (s : LinearScale) (x : ℚ) : ℚ :=
  if s.d1 - s.d0 = 0 then s.r0 + 1 / 2 * (s.r1 - s.r0)
  else s.r0 + (x - s.d0) / (s.d1 - s.d0) * (s.r1 - s.r0)

/-- Model of `d3.extent(dataset, accessor)`: the `[min, max]` of the accessed values,
or `[undefined, undefined]` (here `none`) on an empty dataset.  The
repository's accessed fields are always numeric, so no value is skipped. -/
def extent {α : Type} (dataset : List α) (acc : α → ℚ) : Option (ℚ × ℚ) :=
  dataset.foldl
    (fun st x =>
      match st with
      | none => some (acc x, acc x)
      | some (lo, hi) => some (min lo (acc x), max hi (acc x)))
    none

/-- Fuelled base-10 logarithm on naturals (`⌊log₁₀ n⌋` for `n ≥ 1`); the
fuel is the number itself, which always suffices. -/
def log10Aux : ℕ → ℕ → ℕ
  | 0, _ => 0
  | fuel + 1, n => if n < 10 then 0 else log10Aux fuel (n / 10) + 1

/-- Floor of the base-10 logarithm of `n`, for `n ≥ 1`. -/
def natLog10 (n : ℕ) : ℕ := log10Aux n n

/-- Fuelled base-10 ceiling logarithm (`⌈log₁₀ n⌉` for `n ≥ 1`: the least
`k` with `n ≤ 10^k`). -/
def clog10Aux : ℕ → ℕ → ℕ
  | 0, _ => 0
  | fuel + 1, n => if n ≤ 1 then 0 else clog10Aux fuel ((n + 9) / 10) + 1

/-- Ceiling of the base-10 logarithm of `n`, for `n ≥ 1`. -/
def natClog10 (n : ℕ) : ℕ := clog10Aux n n

/-- Floor of the base-10 logarithm of a positive rational `q`, used by d3's `tickIncrement`
(`Math.floor(Math.log10(step))`). -/
def log10floor (q : ℚ) : ℤ :=
  if 1 ≤ q then (natLog10 ⌊q⌋.toNat : ℤ)
  else -(natClog10 ⌈q⁻¹⌉.toNat : ℤ)

/-- d3's `tickIncrement(start, stop, count)`: the tick step for the interval,
snapped to 1/2/5/10 times a power of ten.  d3 compares the error factor
against `√50`, `√10`, `√2`; we compare squares, which is equivalent for the
nonnegative rational error factor.  A negative return value encodes the
reciprocal step `-1/result`, exactly as in d3. -/
def tickIncrement (start stop : ℚ) (count : ℕ) : ℚ :=
  let step := (stop - start) / (count : ℚ)
  let power := log10floor step
  let error := step / (10 : ℚ) ^ power
  let factor : ℚ :=
    if 50 ≤ error ^ 2 then 10
    else if 10 ≤ error ^ 2 then 5
    else if 2 ≤ error ^ 2 then 2
    else 1
  if 0 ≤ power then factor * (10 : ℚ) ^ power
  else -((10 : ℚ) ^ (-power)) / factor

/-- The loop body of d3 `linear.nice(count = 10)` with explicit fuel
(`maxIter = 10`).  When `step === prestep` the current bounds are committed;
when the fuel runs out or the step is zero, the original domain is left
unchanged, as in d3. -/
def niceLoop : ℕ → Option ℚ → ℚ × ℚ → ℚ × ℚ → ℚ × ℚ
  | 0, _, orig, _ => orig
  | fuel + 1, prestep, orig, (start, stop) =>
    let step := tickIncrement start stop 10
    if prestep = some step then (start, stop)
    else if 0 < step then
      niceLoop fuel (some step) orig
        ((⌊start / step⌋ : ℚ) * step, (⌈stop / step⌉ : ℚ) * step)
    else if step < 0 then
      niceLoop fuel (some step) orig
        ((⌈start * step⌉ : ℚ) / step, (⌊stop * step⌋ : ℚ) / step)
    else orig

/-- Model of `scale.nice()` on a two-element domain `[d0, d1]`: sort the endpoints,
run the fuelled loop.  On a degenerate (single-point) domain every d3 tick
step is `-Infinity`/NaN, the loop's arithmetic yields NaN bounds and it
exits via `break` without committing, so the domain is left unchanged; we
model that case by the explicit guard.  For `start < stop` every tick step
is a genuine number and the loop below is exact. -/
def niceDomain (d0 d1 : ℚ) : ℚ × ℚ :=
  if d0 = d1 then (d0, d1)
  else
    let sorted := if d1 < d0 then (d1, d0) else (d0, d1)
    niceLoop 10 none (d0, d1) sorted

/-- The x position scale of the scatterplot scripts:
`d3.scaleLinear().domain(d3.extent(dataset, xAccessor)).range([0, boundedWidth]).nice()`.
The empty-dataset case (undefined extent, a NaN-producing scale in the
browser) is modelled separately by `JsScale`; the degenerate domain used in
that branch here is never relied upon. -/
def xScaleOf (dataset : List Record) (dims : Dimensions) : LinearScale :=
  match extent dataset xAccessor with
  | some (a, b) =>
    let n := niceDomain a b
    ⟨n.1, n.2, 0, dims.boundedWidth⟩
  | none => ⟨0, 0, 0, dims.boundedWidth⟩

/-- The y position scale:
`d3.scaleLinear().domain(d3.extent(dataset, yAccessor)).range([boundedHeight, 0]).nice()`
— note the inverted range. -/
def yScaleOf (dataset : List Record) (dims : Dimensions) : LinearScale :=
  match extent dataset yAccessor with
  | some (a, b) =>
    let n := niceDomain a b
    ⟨n.1, n.2, dims.boundedHeight, 0⟩
  | none => ⟨0, 0, dims.boundedHeight, 0⟩

/-- An RGB color as an exact triple, as d3's `interpolateRgb` computes it
before rounding for display. -/
abbrev Rgb : Type := ℚ × ℚ × ℚ

/-- CSS `skyblue` = rgb(135, 206, 235). -/
def skyblue : Rgb := (135, 206, 235)

/-- CSS `darkslategrey` = rgb(47, 79, 79). -/
def darkslategrey : Rgb := (47, 79, 79)

/-- The color scale:
`d3.scaleLinear().domain(d3.extent(dataset, colorAccessor)).range(["skyblue", "darkslategrey"])`
(no `.nice()`), applied to a value: interpolate the two colors at the
normalized domain position. -/
def colorScaleOf (dataset : List Record) (v : ℚ) : Rgb :=
  match extent dataset colorAccessor with
  | some (a, b) =>
    let t := (v - a) / (b - a)
    (skyblue.1 + t * (darkslategrey.1 - skyblue.1),
     skyblue.2.1 + t * (darkslategrey.2.1 - skyblue.2.1),
     skyblue.2.2 + t * (darkslategrey.2.2 - skyblue.2.2))
  | none => (0, 0, 0)

/-- An SVG `<circle>` child of the `bounds` group.  `datum` is the record
bound to it (`__data__`); the attributes are `none` until a `.attr` call
sets them (a freshly appended circle has no attributes). -/
structure Circle where
  datum : Record
  cx : Option ℚ
  cy : Option ℚ
  r : Option ℚ
  fill : Option Rgb
deriving DecidableEq, Repr

/-- A freshly appended circle bound to `d`, before any `.attr` call. -/
def freshCircle (d : Record) : Circle :=
  { datum := d, cx := none, cy := none, r := none, fill := none }

/-- The chained `.attr` calls of the render pipeline applied to one circle of
the merged (update ∪ enter) selection, with `d` the datum `data()` bound:
`cx ↦ xScale(xAccessor(d))`, `cy ↦ yScale(yAccessor(d))`, `r ↦ 5`,
`fill ↦ colorScale(colorAccessor(d))`. -/
def applyDotAttrs (fx fy : ℚ → ℚ) (fc : ℚ → Rgb) (d : Record) (c : Circle) :
    Circle :=
  { c with
    datum := d
    cx := some (fx (xAccessor d))
    cy := some (fy (yAccessor d))
    r := some 5
    fill := some (fc (colorAccessor d)) }

/-- Model of `bounds.selectAll("circle").data(dataset).join("circle").attr(...)`,
acting on the list of circle children of `bounds`.  With d3's default
by-index key: the first `min` circles are the update selection (rebound to
the records at the same index), records beyond the existing circles are the
enter selection (appended as fresh circles), circles beyond the dataset are
the exit selection (removed by `.join`).  The attribute setters then run on
the merged selection. -/
def renderDots (circles : List Circle) (dataset : List Record)
    (fx fy : ℚ → ℚ) (fc : ℚ → Rgb) : List Circle :=
  let updated := (circles.zip dataset).map fun p => applyDotAttrs fx fy fc p.2 p.1
  let entered := (dataset.drop circles.length).map fun d =>
    applyDotAttrs fx fy fc d (freshCircle d)
  updated ++ entered

/-- The enter partition of `selectAll("circle").data(dataset)`: the records
with no existing circle at their index. -/
def enterData (circles : List Circle) (dataset : List Record) : List Record :=
  dataset.drop circles.length

/-- The exit partition: the circles whose index has no record. -/
def exitNodes (circles : List Circle) (dataset : List Record) : List Circle :=
  circles.drop dataset.length

/-- part_000's variant:
`bounds.selectAll("circle").data(dataset).enter().append("circle")` — append
one fresh circle per enter-record, no `.join`, no attributes. -/
def enterAppendCircles (circles : List Circle) (dataset : List Record) :
    List Circle :=
  circles ++ (enterData circles dataset).map freshCircle

/-- The whole draw-data step of part_001/part_004/part_005 starting from the
freshly appended (hence circle-free) `bounds` group, with the scales the
script builds. -/
def drawScatterCircles (dataset : List Record) (dims : Dimensions) :
    List Circle :=
  renderDots [] dataset (xScaleOf dataset dims).apply (yScaleOf dataset dims).apply
    (colorScaleOf dataset)

/-- A scale as the browser actually holds it: the domain may be the
`[undefined, undefined]` pair an empty `d3.extent` returns (modelled `none`;
arithmetic on it yields NaN, also modelled `none`). -/
structure JsScale where
  dom : Option (ℚ × ℚ)
  rng : ℚ × ℚ
deriving DecidableEq, Repr

/-- Applying a `JsScale`: with an undefined domain every arithmetic step is
NaN, so the output is NaN (`none`); d3 raises no error and substitutes no
default.  `.nice()` on the undefined domain also leaves it undefined (every
`tickIncrement` is NaN and `NaN === NaN` is false, so the loop exhausts its
iterations without committing). -/
def JsScale.applyJs (s : JsScale) (x : ℚ) : Option ℚ :=
  s.dom.map fun d => LinearScale.apply ⟨d.1, d.2, s.rng.1, s.rng.2⟩ x

/-- The x scale exactly as constructed by the scripts, including the
undefined-extent case:
`d3.scaleLinear().domain(d3.extent(dataset, xAccessor)).range([0, boundedWidth]).nice()`. -/
def mkXScaleJs (dataset : List Record) (dims : Dimensions) : JsScale :=
  { dom := (extent dataset xAccessor).map fun d => niceDomain d.1 d.2
    rng := (0, dims.boundedWidth) }

/-- The y scale as constructed, including the undefined-extent case. -/
def mkYScaleJs (dataset : List Record) (dims : Dimensions) : JsScale :=
  { dom := (extent dataset yAccessor).map fun d => niceDomain d.1 d.2
    rng := (dims.boundedHeight, 0) }

/-! ## Interaction layer (hover handlers of part_004 / part_005) -/

/-- The highlight circle `onMouseEnter` appends to `bounds`:
with the tooltipDot class, position at the hovered record, radius 7,
`fill maroon`, `pointer-events: none`. -/
structure TooltipDot where
  cx : ℚ
  cy : ℚ
  r : ℚ
  pointerEventsNone : Bool
deriving DecidableEq, Repr

/-- The mutable state the hover handlers touch: the tooltip's opacity and
displayed values, and the `.tooltipDot` circles present in the document. -/
structure InteractionState where
  tooltipOpacity : ℚ
  humidityShown : Option ℚ
  dewPointShown : Option ℚ
  tooltipDots : List TooltipDot
deriving DecidableEq, Repr

/-- The page's initial state: the tooltip markup starts visible in this
repository's CSS (`opacity: 0` is commented out), but its opacity plays no
role before the first handler runs; we record it as 1. -/
def initialInteractionState : InteractionState :=
  { tooltipOpacity := 1, humidityShown := none, dewPointShown := none
    tooltipDots := [] }

/-- The highlight dot `onMouseEnter` creates for record `d` (part_004 lines
110–117, part_005 lines 132–139). -/
def mkTooltipDot (fx fy : ℚ → ℚ) (d : Record) : TooltipDot :=
  { cx := fx (xAccessor d), cy := fy (yAccessor d), r := 7
    pointerEventsNone := true }

/-- Handler `onMouseEnter(event, d)` of part_004 and part_005: append a fresh
`.tooltipDot` circle (without removing any), show the tooltip
(`opacity 1`), and set the formatted humidity and dew-point texts. -/
def onMouseEnter (fx fy : ℚ → ℚ) (d : Record) (s : InteractionState) :
    InteractionState :=
  { s with
    tooltipDots := s.tooltipDots ++ [mkTooltipDot fx fy d]
    tooltipOpacity := 1
    humidityShown := some (yAccessor d)
    dewPointShown := some (xAccessor d) }

/-- Handler `onMouseLeave()` of part_005 (and part_001's tooltip half):
`tooltip.style("opacity", 0)` then `d3.selectAll(".tooltipDot").remove()` —
a document-global removal of every highlight dot. -/
def onMouseLeaveP5 (s : InteractionState) : InteractionState :=
  { s with tooltipOpacity := 0, tooltipDots := [] }

/-- Handler `onMouseLeave()` of part_004: the `tooltip.style("opacity", 0)` line is
commented out, so only `d3.selectAll(".tooltipDot").remove()` runs. -/
def onMouseLeaveP4 (s : InteractionState) : InteractionState :=
  { s with tooltipDots := [] }

/-- Iterate `n` consecutive `mouseenter` firings with no intervening `mouseleave`
(each hovering record `d`). -/
def enterN (fx fy : ℚ → ℚ) (d : Record) : ℕ → InteractionState → InteractionState
  | 0, s => s
  | n + 1, s => enterN fx fy d n (onMouseEnter fx fy d s)

/-- Whether an element takes part in pointer-event dispatch: an element
styled `pointer-events: none` never receives `mouseenter`/`mouseleave`. -/
def TooltipDot.receivesPointerEvents (dot : TooltipDot) : Bool :=
  !dot.pointerEventsNone

/-- A concrete record used by the witnesses. -/
def recA : Record := ⟨0, 0, 0, "2019-01-01"⟩

/-- A second concrete record used by the witnesses. -/
def recB : Record := ⟨100, 1, 1, "2019-06-01"⟩

/-- Concrete dimensions used by the witnesses: a 1000×800 viewport with the
margins of part_001. -/
def dimsW : Dimensions := makeDimensions 1000 800 marginP1

end Scatter

namespace LineChart

/-!  The line/area-chart samples (`src/samples/20-line-chart`,
`src/samples/21-area-chart`): their access step mutates each fetched record
in place: `d.date = parseTime(d.date); d.close = +d.close;`. -/

/-- The `date` field of a stock point: the `"YYYY/MM/DD"` string as parsed
from JSON, or the `Date` object (here the year/month/day triple, `none` for
an unparseable string) that `d3.timeParse("%Y/%m/%d")` replaces it with. -/
inductive JsDate where
  | raw (s : String)
  | parsed (t : Option (ℕ × ℕ × ℕ))
deriving DecidableEq, Repr

/-- The slash separator of the date format. -/
def slash : String := "/"

/-- Model of `d3.timeParse("%Y/%m/%d")` on a string: three slash-separated numeric
components, else null. -/
def parseTime (s : String) : Option (ℕ × ℕ × ℕ) :=
  match s.splitOn slash with
  | [y, m, d] =>
    match y.toNat?, m.toNat?, d.toNat? with
    | some a, some b, some c => some (a, b, c)
    | _, _, _ => none
  | _ => none

/-- Function `parseTime` as invoked on whatever the `date` field currently holds
(null on a non-string). -/
def parseTimeJs : JsDate → Option (ℕ × ℕ × ℕ)
  | .raw s => parseTime s
  | .parsed _ => none

/-- One element of a company's `values` array. -/
structure StockPoint where
  date : JsDate
  close : ℚ
deriving DecidableEq, Repr

/-- One element of the fetched dataset: a company with its `values`. -/
structure Company where
  values : List StockPoint
deriving DecidableEq, Repr

/-- The in-place mutation of one point inside
`dataset.forEach((company) => company.values.forEach((d) => {...}))`:
`d.date = parseTime(d.date)` and `d.close = +d.close` (the unary-plus
coercion is the identity on an already numeric `close`). -/
def preprocessPoint (p : StockPoint) : StockPoint :=
  { p with date := .parsed (parseTimeJs p.date), close := p.close }

/-- The whole `dataset.forEach` preprocessing of `drawLineChart`. -/
def drawLineChartPreprocess (dataset : List Company) : List Company :=
  dataset.map fun co => { co with values := co.values.map preprocessPoint }

/-- A concrete date string in the format of `data.json`. -/
def sampleDate : String := "2019/01/01"

/-- A concrete stock point as parsed from `data.json`, used to exhibit the
in-place mutation. -/
def stockP : StockPoint := ⟨.raw sampleDate, 10⟩

end LineChart

namespace Scatter

/-! ## Helper lemmas about the data join -/

theorem renderDots_cons (c : Circle) (cs : List Circle) (d : Record)
    (ds : List Record) (fx fy : ℚ → ℚ) (fc : ℚ → Rgb) :
    renderDots (c :: cs) (d :: ds) fx fy fc =
      applyDotAttrs fx fy fc d c :: renderDots cs ds fx fy fc := by
  simp [renderDots]

/-- The attribute setters overwrite every field of a circle, so the result
does not depend on the previous circle at that slot; consequently the join
always produces one fully attributed circle per record, in dataset order. -/
theorem renderDots_eq_map (cs : List Circle) (ds : List Record)
    (fx fy : ℚ → ℚ) (fc : ℚ → Rgb) :
    renderDots cs ds fx fy fc =
      ds.map fun d => applyDotAttrs fx fy fc d (freshCircle d) := by
  induction cs generalizing ds with
  | nil => simp [renderDots]
  | cons c cs ih =>
    cases ds with
    | nil => simp [renderDots]
    | cons d ds =>
      rw [renderDots_cons, ih, List.map_cons]
      rfl

theorem renderDots_length (cs : List Circle) (ds : List Record)
    (fx fy : ℚ → ℚ) (fc : ℚ → Rgb) :
    (renderDots cs ds fx fy fc).length = ds.length := by
  rw [renderDots_eq_map]; simp

/-- **C1.** For every dataset `D` (and any circles already in the bounds
container), after the render pipeline — `selectAll("circle").data(D)`
followed by `.join("circle")` and the attribute setters (part_001), or by
`.enter().append("circle")` on the initially empty container (part_000) —
the number of circles equals `|D|`, and the circle at index `i` is bound to
exactly the record `D[i]` (so the datum list of the marks is `D` itself). -/
theorem renderPipeline_mark_count_eq_dataset (cs : List Circle)
    (D : List Record) (fx fy : ℚ → ℚ) (fc : ℚ → Rgb) :
    ((renderDots cs D fx fy fc).length = D.length ∧
      (renderDots cs D fx fy fc).map Circle.datum = D) ∧
    ((enterAppendCircles [] D).length = D.length ∧
      (enterAppendCircles [] D).map Circle.datum = D) := by
  refine ⟨⟨renderDots_length cs D fx fy fc, ?_⟩, ?_, ?_⟩
  · rw [renderDots_eq_map, List.map_map]
    simp [Function.comp_def, applyDotAttrs]
  · simp [enterAppendCircles, enterData]
  · simp [enterAppendCircles, enterData, List.map_map, Function.comp_def,
      freshCircle]

/-- **C3.** Invoking the render pipeline a second time with the unchanged
dataset against the same bounds container is idempotent: the second join's
enter and exit partitions are both empty (no circle appended, none removed)
and the resulting circle list is unchanged. -/
theorem renderPipeline_idempotent (cs : List Circle) (D : List Record)
    (fx fy : ℚ → ℚ) (fc : ℚ → Rgb) :
    enterData (renderDots cs D fx fy fc) D = [] ∧
    exitNodes (renderDots cs D fx fy fc) D = [] ∧
    renderDots (renderDots cs D fx fy fc) D fx fy fc =
      renderDots cs D fx fy fc := by
  refine ⟨?_, ?_, ?_⟩
  · simp [enterData, renderDots_length]
  · simp only [exitNodes]
    rw [← renderDots_length cs D fx fy fc, List.drop_length]
  · rw [renderDots_eq_map cs, renderDots_eq_map]

/-- **C2.** Every mark produced by the draw-data step of the scatterplot
scripts has `cx = xScale(xAccessor(r))` and `cy = yScale(yAccessor(r))`,
where `r` is the record bound to the mark and `xScale`/`yScale` are the
scales the script constructs; in exact rational arithmetic the equality is
exact, hence within any floating-point tolerance. -/
theorem drawScatter_mark_positions (D : List Record) (dims : Dimensions)
    (c : Circle) (hc : c ∈ drawScatterCircles D dims) :
    c.cx = some ((xScaleOf D dims).apply (xAccessor c.datum)) ∧
    c.cy = some ((yScaleOf D dims).apply (yAccessor c.datum)) := by
  rw [drawScatterCircles, renderDots_eq_map] at hc
  obtain ⟨d, _, rfl⟩ := List.mem_map.mp hc
  exact ⟨rfl, rfl⟩

/-- Witness for C2 at the concrete two-record dataset `[recA, recB]`. -/
theorem drawScatter_mark_positions_witness :
    applyDotAttrs (xScaleOf [recA, recB] dimsW).apply
        (yScaleOf [recA, recB] dimsW).apply (colorScaleOf [recA, recB]) recA
        (freshCircle recA) ∈ drawScatterCircles [recA, recB] dimsW ∧
    (applyDotAttrs (xScaleOf [recA, recB] dimsW).apply
        (yScaleOf [recA, recB] dimsW).apply (colorScaleOf [recA, recB]) recA
        (freshCircle recA)).cx =
      some ((xScaleOf [recA, recB] dimsW).apply
        (xAccessor (applyDotAttrs (xScaleOf [recA, recB] dimsW).apply
          (yScaleOf [recA, recB] dimsW).apply (colorScaleOf [recA, recB]) recA
          (freshCircle recA)).datum)) ∧
    (applyDotAttrs (xScaleOf [recA, recB] dimsW).apply
        (yScaleOf [recA, recB] dimsW).apply (colorScaleOf [recA, recB]) recA
        (freshCircle recA)).cy =
      some ((yScaleOf [recA, recB] dimsW).apply
        (yAccessor (applyDotAttrs (xScaleOf [recA, recB] dimsW).apply
          (yScaleOf [recA, recB] dimsW).apply (colorScaleOf [recA, recB]) recA
          (freshCircle recA)).datum)) := by
  have hmem : applyDotAttrs (xScaleOf [recA, recB] dimsW).apply
      (yScaleOf [recA, recB] dimsW).apply (colorScaleOf [recA, recB]) recA
      (freshCircle recA) ∈ drawScatterCircles [recA, recB] dimsW := by
    rw [drawScatterCircles, renderDots_eq_map]
    exact List.mem_map_of_mem _ (by simp)
  have h := drawScatter_mark_positions [recA, recB] dimsW _ hmem
  exact ⟨hmem, h.1, h.2⟩

/-- **C4.** For every viewport and margin configuration with four
non-negative insets, the dimension calculator yields
outer width = outer height = `min(innerWidth, innerHeight) * 0.9` (the code
computes `min(innerWidth * 0.9, innerHeight * 0.9)`, which is the same in
exact arithmetic since `0.9 > 0`), `boundedWidth = width - left - right` and
`boundedHeight = height - top - bottom`. -/
theorem makeDimensions_spec (iw ih : ℚ) (m : Margin) (ht : 0 ≤ m.top)
    (hr : 0 ≤ m.right) (hb : 0 ≤ m.bottom) (hl : 0 ≤ m.left) :
    (makeDimensions iw ih m).width = min iw ih * (9/10) ∧
    (makeDimensions iw ih m).height = min iw ih * (9/10) ∧
    (makeDimensions iw ih m).boundedWidth =
      (makeDimensions iw ih m).width - m.left - m.right ∧
    (makeDimensions iw ih m).boundedHeight =
      (makeDimensions iw ih m).height - m.top - m.bottom := by
  have hmin : min (iw * (9/10)) (ih * (9/10)) = min iw ih * (9/10) := by
    rcases le_total iw ih with h | h
    · rw [min_eq_left (mul_le_mul_of_nonneg_right h (by norm_num)),
        min_eq_left h]
    · rw [min_eq_right (mul_le_mul_of_nonneg_right h (by norm_num)),
        min_eq_right h]
  exact ⟨hmin, hmin, rfl, rfl⟩

/-- Witness for C4 at a 1000×800 viewport with part_001's margins. -/
theorem makeDimensions_spec_witness :
    (0 ≤ marginP1.top ∧ 0 ≤ marginP1.right ∧ 0 ≤ marginP1.bottom ∧
      0 ≤ marginP1.left) ∧
    (makeDimensions 1000 800 marginP1).width = min 1000 800 * (9/10) ∧
    (makeDimensions 1000 800 marginP1).height = min 1000 800 * (9/10) ∧
    (makeDimensions 1000 800 marginP1).boundedWidth =
      (makeDimensions 1000 800 marginP1).width - marginP1.left -
        marginP1.right ∧
    (makeDimensions 1000 800 marginP1).boundedHeight =
      (makeDimensions 1000 800 marginP1).height - marginP1.top -
        marginP1.bottom :=
  ⟨⟨by norm_num [marginP1], by norm_num [marginP1], by norm_num [marginP1],
      by norm_num [marginP1]⟩,
    makeDimensions_spec 1000 800 marginP1 (by norm_num [marginP1])
      (by norm_num [marginP1]) (by norm_num [marginP1])
      (by norm_num [marginP1])⟩

/-! ## Helper lemmas about `.nice()` and linear scales -/

/-- The nice loop either leaves the original domain untouched or widens the
current bounds: the committed lower bound is at most the incoming start and
the committed upper bound is at least the incoming stop. -/
theorem niceLoop_expands (fuel : ℕ) :
    ∀ (pre : Option ℚ) (orig p : ℚ × ℚ),
      niceLoop fuel pre orig p = orig ∨
      ((niceLoop fuel pre orig p).1 ≤ p.1 ∧ p.2 ≤ (niceLoop fuel pre orig p).2) := by
  induction fuel with
  | zero => intro pre orig p; exact Or.inl rfl
  | succ n ih =>
    intro pre orig p
    obtain ⟨start, stop⟩ := p
    rw [niceLoop]
    set s := tickIncrement start stop 10 with hs
    by_cases h1 : pre = some s
    · simp only [if_pos h1]
      exact Or.inr ⟨le_refl _, le_refl _⟩
    · simp only [if_neg h1]
      by_cases h2 : 0 < s
      · simp only [if_pos h2]
        rcases ih (some s) orig ((⌊start / s⌋ : ℚ) * s, (⌈stop / s⌉ : ℚ) * s)
          with h | h
        · exact Or.inl h
        · refine Or.inr ⟨le_trans h.1 ?_, le_trans ?_ h.2⟩
          · calc (⌊start / s⌋ : ℚ) * s ≤ start / s * s :=
                mul_le_mul_of_nonneg_right (Int.floor_le _) h2.le
              _ = start := div_mul_cancel₀ start (ne_of_gt h2)
          · calc stop = stop / s * s := (div_mul_cancel₀ stop (ne_of_gt h2)).symm
              _ ≤ (⌈stop / s⌉ : ℚ) * s :=
                mul_le_mul_of_nonneg_right (Int.le_ceil _) h2.le
      · simp only [if_neg h2]
        by_cases h3 : s < 0
        · simp only [if_pos h3]
          rcases ih (some s) orig ((⌈start * s⌉ : ℚ) / s, (⌊stop * s⌋ : ℚ) / s)
            with h | h
          · exact Or.inl h
          · refine Or.inr ⟨le_trans h.1 ?_, le_trans ?_ h.2⟩
            · calc (⌈start * s⌉ : ℚ) / s ≤ start * s / s :=
                  (div_le_div_right_of_neg h3).mpr (Int.le_ceil _)
                _ = start := mul_div_cancel_right₀ start (ne_of_lt h3)
            · calc stop = stop * s / s :=
                  (mul_div_cancel_right₀ stop (ne_of_lt h3)).symm
                _ ≤ (⌊stop * s⌋ : ℚ) / s :=
                  (div_le_div_right_of_neg h3).mpr (Int.floor_le _)
        · simp only [if_neg h3]
          exact Or.inl trivial

/-- Niceing only widens a non-degenerate sorted domain. -/
theorem niceDomain_expands (d0 d1 : ℚ) (h : d0 < d1) :
    (niceDomain d0 d1).1 ≤ d0 ∧ d1 ≤ (niceDomain d0 d1).2 := by
  rw [niceDomain]
  rw [if_neg (ne_of_lt h), if_neg (not_lt_of_lt h)]
  rcases niceLoop_expands 10 none (d0, d1) (d0, d1) with heq | hle
  · rw [heq]; exact ⟨le_refl _, le_refl _⟩
  · exact hle

/-- A linear scale with a non-degenerate domain maps its endpoints to the
range endpoints. -/
theorem LinearScale.apply_endpoints (s : LinearScale) (h : s.d0 < s.d1) :
    s.apply s.d0 = s.r0 ∧ s.apply s.d1 = s.r1 := by
  have hne : s.d1 - s.d0 ≠ 0 := sub_ne_zero.mpr (ne_of_gt h)
  constructor
  · rw [LinearScale.apply, if_neg hne]
    rw [sub_self, zero_div, zero_mul, add_zero]
  · rw [LinearScale.apply, if_neg hne]
    rw [div_self hne, one_mul, add_sub_cancel]

/-- A linear scale with increasing domain and decreasing range is strictly
antitone. -/
theorem LinearScale.apply_strictAnti (s : LinearScale) (h : s.d0 < s.d1)
    (hr : s.r1 < s.r0) (y1 y2 : ℚ) (hy : y1 < y2) :
    s.apply y2 < s.apply y1 := by
  have hne : s.d1 - s.d0 ≠ 0 := sub_ne_zero.mpr (ne_of_gt h)
  rw [LinearScale.apply, if_neg hne, LinearScale.apply, if_neg hne]
  have h1 : (y1 - s.d0) / (s.d1 - s.d0) < (y2 - s.d0) / (s.d1 - s.d0) :=
    (div_lt_div_iff_of_pos_right (sub_pos.mpr h)).mpr (sub_lt_sub_right hy _)
  have h2 := mul_lt_mul_of_neg_right h1 (sub_neg.mpr hr)
  exact add_lt_add_left h2 s.r0

/-- **C5.** The y position scale is built with the inverted range
`[boundedHeight, 0]`: it maps its domain minimum to the bottom pixel
`boundedHeight` and its domain maximum to the top pixel `0` (the x scale's
range `[0, boundedWidth]` runs the other way), so for records `ra`, `rb`
with `yAccessor ra < yAccessor rb` the scaled position of `rb` is above
(smaller than) that of `ra`. -/
theorem yScale_range_inverted (dataset : List Record) (dims : Dimensions)
    (m M : ℚ) (hext : extent dataset yAccessor = some (m, M)) (hmM : m < M)
    (hbh : 0 < dims.boundedHeight) (ra rb : Record)
    (hr : yAccessor ra < yAccessor rb) :
    (yScaleOf dataset dims).r0 = dims.boundedHeight ∧
    (yScaleOf dataset dims).r1 = 0 ∧
    (xScaleOf dataset dims).r0 = 0 ∧
    (xScaleOf dataset dims).r1 = dims.boundedWidth ∧
    (yScaleOf dataset dims).apply (yScaleOf dataset dims).d0 =
      dims.boundedHeight ∧
    (yScaleOf dataset dims).apply (yScaleOf dataset dims).d1 = 0 ∧
    (yScaleOf dataset dims).apply (yAccessor rb) <
      (yScaleOf dataset dims).apply (yAccessor ra) := by
  have hy : yScaleOf dataset dims =
      ⟨(niceDomain m M).1, (niceDomain m M).2, dims.boundedHeight, 0⟩ := by
    simp only [yScaleOf, hext]
  have hexp := niceDomain_expands m M hmM
  have hdom : (niceDomain m M).1 < (niceDomain m M).2 :=
    lt_of_le_of_lt hexp.1 (lt_of_lt_of_le hmM hexp.2)
  have hx : (xScaleOf dataset dims).r0 = 0 ∧
      (xScaleOf dataset dims).r1 = dims.boundedWidth := by
    rw [xScaleOf]
    rcases extent dataset xAccessor with _ | ⟨a, b⟩ <;> exact ⟨rfl, rfl⟩
  refine ⟨by rw [hy], by rw [hy], hx.1, hx.2, ?_, ?_, ?_⟩
  · rw [hy]
    exact (LinearScale.apply_endpoints
      ⟨(niceDomain m M).1, (niceDomain m M).2, dims.boundedHeight, 0⟩ hdom).1
  · rw [hy]
    exact (LinearScale.apply_endpoints
      ⟨(niceDomain m M).1, (niceDomain m M).2, dims.boundedHeight, 0⟩ hdom).2
  · rw [hy]
    exact LinearScale.apply_strictAnti
      ⟨(niceDomain m M).1, (niceDomain m M).2, dims.boundedHeight, 0⟩ hdom hbh
      _ _ hr

/-- Witness for C5 at the concrete dataset `[recA, recB]` (humidity extent
`[0, 1]`) and the 1000×800 viewport. -/
theorem yScale_range_inverted_witness :
    (extent [recA, recB] yAccessor = some (0, 1) ∧ (0 : ℚ) < 1 ∧
      0 < dimsW.boundedHeight ∧ yAccessor recA < yAccessor recB) ∧
    (yScaleOf [recA, recB] dimsW).r0 = dimsW.boundedHeight ∧
    (yScaleOf [recA, recB] dimsW).r1 = 0 ∧
    (xScaleOf [recA, recB] dimsW).r0 = 0 ∧
    (xScaleOf [recA, recB] dimsW).r1 = dimsW.boundedWidth ∧
    (yScaleOf [recA, recB] dimsW).apply (yScaleOf [recA, recB] dimsW).d0 =
      dimsW.boundedHeight ∧
    (yScaleOf [recA, recB] dimsW).apply (yScaleOf [recA, recB] dimsW).d1 =
      0 ∧
    (yScaleOf [recA, recB] dimsW).apply (yAccessor recB) <
      (yScaleOf [recA, recB] dimsW).apply (yAccessor recA) := by
  have hext : extent [recA, recB] yAccessor = some (0, 1) := by
    norm_num [extent, yAccessor, recA, recB, min_def, max_def]
  have hbh : 0 < dimsW.boundedHeight := by
    norm_num [dimsW, makeDimensions, marginP1, min_def]
  have hr : yAccessor recA < yAccessor recB := by
    norm_num [yAccessor, recA, recB]
  exact ⟨⟨hext, by norm_num, hbh, hr⟩,
    yScale_range_inverted [recA, recB] dimsW 0 1 hext (by norm_num) hbh
      recA recB hr⟩

/-- One unfolding step of the nice loop, with the tick step named so that a
concrete run can be evaluated a step at a time. -/
theorem niceLoop_step (fuel : ℕ) (prestep : Option ℚ) (orig : ℚ × ℚ)
    (start stop s : ℚ) (hs : tickIncrement start stop 10 = s) :
    niceLoop (fuel + 1) prestep orig (start, stop) =
      if prestep = some s then (start, stop)
      else if 0 < s then
        niceLoop fuel (some s) orig
          ((⌊start / s⌋ : ℚ) * s, (⌈stop / s⌉ : ℚ) * s)
      else if s < 0 then
        niceLoop fuel (some s) orig
          ((⌈start * s⌉ : ℚ) / s, (⌊stop * s⌋ : ℚ) / s)
      else orig := by
  subst hs; rfl

/-- **C6.** For the input domain `[11.8, 77.26]` the niceing rule picks the
tick step 5 (`tickIncrement` of the interval at the default count 10) and
produces the domain `[10, 80]`: both bounds are integer multiples of the
chosen step (`10 = 2·5`, `80 = 16·5`) and the niced domain contains the
original extent. -/
theorem nice_domain_11_8_77_26 :
    niceDomain (59/5) (7726/100) = (10, 80) ∧
    tickIncrement (59/5) (7726/100) 10 = 5 ∧
    (10 : ℚ) = ((2 : ℤ) : ℚ) * 5 ∧ (80 : ℚ) = ((16 : ℤ) : ℚ) * 5 ∧
    (10 : ℚ) ≤ 59/5 ∧ (7726/100 : ℚ) ≤ 80 := by
  have h1 : tickIncrement (59/5) (7726/100) 10 = 5 := by
    norm_num [tickIncrement, log10floor, natLog10, log10Aux]
  have h2 : tickIncrement 10 80 10 = 5 := by
    norm_num [tickIncrement, log10floor, natLog10, log10Aux]
  have hceil : (⌈(3863 : ℚ) / 250⌉ : ℤ) = 16 := by
    rw [Int.ceil_eq_iff]
    norm_num
  refine ⟨?_, h1, by norm_num, by norm_num, by norm_num, by norm_num⟩
  have e1 : niceDomain (59/5) (7726/100) =
      niceLoop 10 none (59/5, 7726/100) (59/5, 7726/100) := by
    rw [niceDomain]
    norm_num
  rw [e1, show (10:ℕ) = 9+1 from rfl, niceLoop_step 9 none _ _ _ 5 h1,
    if_neg (by simp), if_pos (by norm_num : (0:ℚ) < 5)]
  norm_num [hceil]
  rw [show (9:ℕ) = 8+1 from rfl, niceLoop_step 8 _ _ _ _ 5 h2, if_pos rfl]

/-- **C7, counterexample.** On the empty dataset the extents are
`[undefined, undefined]` (`none`), the x and y scales are nevertheless
constructed without any error, no default domain is substituted, and
applying either scale to the value 50 silently yields NaN (`none`) — so the
claim that scale construction fails fast or falls back to a default domain
and never silently produces NaN is false for this code. -/
theorem emptyDataset_scale_claim_counterexample :
    (mkXScaleJs [] dimsW).dom = none ∧
    (mkXScaleJs [] dimsW).applyJs 50 = none ∧
    (mkYScaleJs [] dimsW).applyJs 50 = none :=
  ⟨rfl, rfl, rfl⟩

/-- **C7, amended.** When the dataset is empty the extent is undefined;
the scales are constructed with the undefined domain (no failure, no
default), and applying them to any value yields NaN (`none`) for every
dimension configuration. -/
theorem emptyDataset_scales_produce_NaN (dims : Dimensions) (v : ℚ) :
    (mkXScaleJs [] dims).dom = none ∧
    (mkXScaleJs [] dims).applyJs v = none ∧
    (mkYScaleJs [] dims).dom = none ∧
    (mkYScaleJs [] dims).applyJs v = none :=
  ⟨rfl, rfl, rfl, rfl⟩

/-- **C8, counterexample.** In part_004 the `tooltip.style("opacity", 0)`
line of `onMouseLeave` is commented out: after a pointer-enter on a record
followed by a pointer-leave, the highlight dots are removed but the tooltip
still has opacity 1, so the interaction state is not the claimed idle
state (tooltip hidden and highlight marks removed). -/
theorem hoverLeave_p4_claim_counterexample :
    ¬((onMouseLeaveP4 (onMouseEnter (fun q => q) (fun q => q) recA
          initialInteractionState)).tooltipOpacity = 0 ∧
      (onMouseLeaveP4 (onMouseEnter (fun q => q) (fun q => q) recA
          initialInteractionState)).tooltipDots = []) := by
  intro h
  simpa [onMouseLeaveP4, onMouseEnter] using h.1

/-- **C8, amended.** After pointer-enter on a record followed by
pointer-leave, every highlight mark (`.tooltipDot`) is removed in all
variants; in part_001/part_005 the tooltip is also hidden (opacity 0),
while in part_004 — whose `onMouseLeave` has the opacity line commented
out — the tooltip keeps the opacity 1 set by `onMouseEnter`. -/
theorem hover_enter_leave_amended (fx fy : ℚ → ℚ) (d : Record)
    (s : InteractionState) :
    (onMouseLeaveP5 (onMouseEnter fx fy d s)).tooltipOpacity = 0 ∧
    (onMouseLeaveP5 (onMouseEnter fx fy d s)).tooltipDots = [] ∧
    (onMouseLeaveP4 (onMouseEnter fx fy d s)).tooltipDots = [] ∧
    (onMouseLeaveP4 (onMouseEnter fx fy d s)).tooltipOpacity = 1 :=
  ⟨rfl, rfl, rfl, rfl⟩

/-- Iterated `mouseenter` grows the highlight-dot list by one per event. -/
theorem enterN_dots_length (fx fy : ℚ → ℚ) (d : Record) :
    ∀ (n : ℕ) (s : InteractionState),
      (enterN fx fy d n s).tooltipDots.length = s.tooltipDots.length + n := by
  intro n
  induction n with
  | zero => intro s; simp [enterN]
  | succ k ih =>
    intro s
    rw [enterN, ih]
    simp [onMouseEnter]
    omega

/-- **C10.** Each pointer-enter appends one fresh highlight dot without
removing any existing one, so `n` consecutive enters starting from the
initial state leave exactly `n` highlight dots; any single pointer-leave
(either variant) removes all `.tooltipDot` elements document-wide, leaving
exactly zero; and each created highlight dot is styled
`pointer-events: none`, so it never takes part in pointer-event dispatch. -/
theorem hover_highlight_marks_invariant (fx fy : ℚ → ℚ) (d : Record)
    (n : ℕ) (s : InteractionState) :
    (onMouseEnter fx fy d s).tooltipDots =
      s.tooltipDots ++ [mkTooltipDot fx fy d] ∧
    (enterN fx fy d n s).tooltipDots.length = s.tooltipDots.length + n ∧
    (enterN fx fy d n initialInteractionState).tooltipDots.length = n ∧
    (onMouseLeaveP4 s).tooltipDots.length = 0 ∧
    (onMouseLeaveP5 s).tooltipDots.length = 0 ∧
    (mkTooltipDot fx fy d).receivesPointerEvents = false := by
  refine ⟨rfl, enterN_dots_length fx fy d n s, ?_, rfl, rfl, rfl⟩
  rw [enterN_dots_length fx fy d n initialInteractionState]
  simp [initialInteractionState]

end Scatter

namespace LineChart

/-- **C9, counterexample.** The access step of the line/area-chart samples
mutates the fetched records in place: after
`dataset.forEach((company) => company.values.forEach((d) => { d.date = parseTime(d.date); d.close = +d.close; }))`
the record array differs from the array as parsed from JSON — the `date`
field of each point has been replaced by the parsed date object. -/
theorem lineChart_records_mutated_counterexample :
    drawLineChartPreprocess [⟨[stockP]⟩] ≠ [⟨[stockP]⟩] := by
  simp [drawLineChartPreprocess, preprocessPoint, stockP]

/-- **C9, amended.** The scatterplot scripts define no mutation of their
records, but the line/area-chart samples mutate each record exactly once,
right after load: the `date` string is replaced in place by the parsed
date (`parseTime`) and `close` by its numeric coercion (the identity on a
number); for every point whose `date` is still the raw JSON string the
preprocessed record therefore differs from the parsed-JSON record. -/
theorem lineChart_preprocess_mutates (p : StockPoint) (s : String)
    (hp : p.date = .raw s) :
    (preprocessPoint p).date = .parsed (parseTime s) ∧
    (preprocessPoint p).close = p.close ∧
    preprocessPoint p ≠ p := by
  refine ⟨by simp [preprocessPoint, parseTimeJs, hp], rfl, ?_⟩
  intro h
  have hd := congrArg StockPoint.date h
  simp [preprocessPoint, parseTimeJs, hp] at hd

/-- Witness for the amended C9 at the concrete point `stockP`. -/
theorem lineChart_preprocess_mutates_witness :
    stockP.date = .raw sampleDate ∧
    ((preprocessPoint stockP).date = .parsed (parseTime sampleDate) ∧
      (preprocessPoint stockP).close = stockP.close ∧
      preprocessPoint stockP ≠ stockP) :=
  ⟨rfl, lineChart_preprocess_mutates stockP sampleDate rfl⟩

end LineChart



